import Mathlib

set_option linter.unusedSectionVars false

/-!
Shallow embedding of `src/jaxhpm/jax_loader.py` (class `JaxMNISTLoader` and the
batch generator `jaxMMNIST`).

Modelling conventions:
* Machine floats become an abstract linear ordered field `α` (instantiated at `ℚ`
  for all concrete evaluations); `jnp` arrays of shape `[k]` / `[k,2]` become
  `List α` / `List (α × α)`.
* A rendered canvas is a total function `ℤ → ℤ → α`: the value of the pixel at
  integer coordinates `(i, j)`; pixels outside every sprite write region are `0`.
  This makes "a sprite write escapes the 64×64 canvas" a statable property.
* The JAX pseudo-random API (`jax.random.key/split/uniform/randint`) and the
  trigonometric primitives (`jnp.pi/cos/sin`) are external library functions, so
  they are modelled as an abstract structure `JaxRT`; `JaxRT.Valid` records the
  documented JAX contracts (`uniform` draws in `[minval, maxval)`, `randint`
  draws in `[lo, hi)`, `split` with a count returns that many keys).
* Fallible construction is modelled with `Except`: `mkLoader` is the translation
  of `JaxMNISTLoader.__init__`, whose body performs no validation and therefore
  always returns `Except.ok`.
-/

namespace JaxHPM

/-- Sprite: a grayscale image, read at non-negative pixel offsets.  Only the
offsets below `28 × 28` are ever read by the compositor. -/
abbrev Sprite (α : Type) := ℕ → ℕ → α

/-- Canvas constants fixed in `__init__`: `self.width, self.height = 64, 64`. -/
def width : ℤ := 64

/-- `self.height` (64). -/
def height : ℤ := 64

/-- `self.mnist_width` (28). -/
def mnist_width : ℤ := 28

/-- `self.mnist_height` (28). -/
def mnist_height : ℤ := 28

/-- `x_lim = self.width - self.mnist_width` (= 36), first component of `self.lims`. -/
def x_lim : ℤ := width - mnist_width

/-- `y_lim = self.height - self.mnist_height` (= 36), second component of `self.lims`. -/
def y_lim : ℤ := height - mnist_height

/-- The digit-motion state carried through an episode: the tuple
`state = (indexes, positions, velocs)` of the source. -/
structure DigitState (α : Type) where
  indexes : List ℤ
  positions : List (α × α)
  velocs : List (α × α)

/-- The configuration fields stored by `JaxMNISTLoader.__init__`. -/
structure JaxMNISTLoader (α : Type) where
  images : List (Sprite α)
  seq_len : ℕ
  nums_per_image : ℕ

/-- `self.num_images = images.shape[0]`. -/
def JaxMNISTLoader.num_images {α : Type} (L : JaxMNISTLoader α) : ℤ :=
  L.images.length

/-- Error kind for configuration errors reported at construction time. -/
inductive ConfigError where
  | invalidConfiguration : ConfigError
deriving DecidableEq

/-- Translation of `JaxMNISTLoader.__init__(images, seq_len, num_mnist_per_mmnist)`.
The constructor body only stores its arguments and the derived constants; it
contains no validation and no raise, so the `Except` error channel (where a
construction-time error would surface) is always `ok`. -/
def mkLoader {α : Type} (images : List (Sprite α)) (seq_len : ℕ)
    (num_mnist_per_mmnist : ℕ) : Except ConfigError (JaxMNISTLoader α) :=
  Except.ok { images := images, seq_len := seq_len, nums_per_image := num_mnist_per_mmnist }

/-- The five-tuple returned by `step`:
`return next_env_state, self._get_obsv(next_state), reward, done, {}`. -/
structure StepResult (Key α : Type) where
  env : DigitState α × Key
  obs : ℤ → ℤ → α
  reward : α
  done : Bool
  info : List (String × α)

variable {α : Type} [LinearOrderedField α] [FloorRing α] {Key : Type}

/-- Per-component velocity update of `step`:
`jax.lax.select((next_pos < -2) | (next_pos > self.lims[0] + 2), -1.0 * velocs, velocs)`.
Note the source compares BOTH coordinate axes against `self.lims[0]`
(broadcast of a scalar over the `[k,2]` array); here `x_lim = y_lim = 36`. -/
def flipVel (next_p v : α) : α :=
  if next_p < -2 ∨ next_p > (x_lim : α) + 2 then -v else v

/-- Truncation toward zero, the semantics of `ndarray.astype(int)` on floats. -/
def truncToZero (q : α) : ℤ :=
  if 0 ≤ q then ⌊q⌋ else ⌈q⌉

/-- The two `jnp.where` clamp lines of `_build_canvas` for one axis:
`x = where(x < 0, 0, x); x = where(x > lim, lim, x)`. -/
def clampPix (lim x : ℤ) : ℤ :=
  if (if x < 0 then 0 else x) > lim then lim else (if x < 0 then 0 else x)

/-- `self.images[index]`.  In-range lookup matches the source; the zero sprite
stands in for the out-of-range gather (never reached from in-range indices). -/
def JaxMNISTLoader.getImage (L : JaxMNISTLoader α) (index : ℤ) : Sprite α :=
  L.images.getD index.toNat (fun _ _ => 0)

/-- Translation of `_build_canvas(index, position)`: truncate the position to
integers, clamp each axis to `[0, lim]`, then `dynamic_update_slice` the 28×28
sprite into a zero 64×64 canvas at offset `(x, y)`.  The resulting canvas is the
function giving the written sprite pixel inside the write region and 0 outside. -/
def JaxMNISTLoader.build_canvas (L : JaxMNISTLoader α) (index : ℤ)
    (position : α × α) : ℤ → ℤ → α := fun i j =>
  if clampPix x_lim (truncToZero position.1) ≤ i ∧
      i < clampPix x_lim (truncToZero position.1) + mnist_width ∧
      clampPix y_lim (truncToZero position.2) ≤ j ∧
      j < clampPix y_lim (truncToZero position.2) + mnist_height then
    L.getImage index (i - clampPix x_lim (truncToZero position.1)).toNat
      (j - clampPix y_lim (truncToZero position.2)).toNat
  else 0

/-- The summation loop of `_get_obsv`:
`canvas = zeros; for i, p in zip(indexes, positions): canvas += self._build_canvas(i, p)`. -/
def JaxMNISTLoader.sumCanvas (L : JaxMNISTLoader α) (state : DigitState α) :
    ℤ → ℤ → α := fun i j =>
  ((state.indexes.zip state.positions).map fun ip => L.build_canvas ip.1 ip.2 i j).sum

/-- Translation of `_get_obsv(state)`: sum the per-digit canvases, clamp the sum
with `jnp.where(canvas > 255.0, 255.0, canvas)`, then divide by 255. -/
def JaxMNISTLoader.get_obsv (L : JaxMNISTLoader α) (state : DigitState α) :
    ℤ → ℤ → α := fun i j =>
  let c := L.sumCanvas state i j
  (if c > 255 then 255 else c) / 255

/-- Translation of `step(env_state, action)`.  The `action` argument is accepted
at any type and never read.  `next_pos = positions + velocs` is the unclamped
prediction; the velocity is flipped per entry of the `[k,2]` array; the new
positions add the possibly-flipped velocity; `reward = 1.0`, `done = False`,
`info = {}`; the random key is passed through untouched. -/
def JaxMNISTLoader.step {A : Type} (L : JaxMNISTLoader α)
    (env_state : DigitState α × Key) (_action : A) : StepResult Key α :=
  let state := env_state.1
  let key := env_state.2
  let next_pos := List.zipWith (fun p v => (p.1 + v.1, p.2 + v.2)) state.positions state.velocs
  let velocs := List.zipWith (fun np v => (flipVel np.1 v.1, flipVel np.2 v.2)) next_pos state.velocs
  let positions := List.zipWith (fun p v => (p.1 + v.1, p.2 + v.2)) state.positions velocs
  let next_state : DigitState α := ⟨state.indexes, positions, velocs⟩
  ⟨(next_state, key), L.get_obsv next_state, 1, false, []⟩

/-- The external JAX runtime primitives consumed by the loader: the splittable
PRNG (`jax.random.key/split/uniform/randint`) and `jnp.pi/cos/sin`.  These are
library code, not repository code, so they are abstract here. -/
structure JaxRT (Key α : Type) where
  mkKey : ℕ → Key
  split : Key → Key × Key
  splitN : Key → ℕ → List Key
  uniform01 : Key → ℕ → List α
  randint : Key → ℕ → ℤ → ℤ → List ℤ
  uniform2 : Key → ℕ → α × α → List (α × α)
  pi : α
  cos : α → α
  sin : α → α

/-- The documented contracts of the JAX primitives: `uniform` draws lie in
`[minval, maxval)`, `randint` draws lie in `[lo, hi)`, shapes are respected,
and `jnp.pi` is positive. -/
structure JaxRT.Valid (R : JaxRT Key α) : Prop where
  length_uniform01 : ∀ k n, (R.uniform01 k n).length = n
  mem_uniform01 : ∀ k n u, u ∈ R.uniform01 k n → 0 ≤ u ∧ u < 1
  length_randint : ∀ k n lo hi, (R.randint k n lo hi).length = n
  mem_randint : ∀ k n lo hi v, lo < hi → v ∈ R.randint k n lo hi → lo ≤ v ∧ v < hi
  length_uniform2 : ∀ k n m, (R.uniform2 k n m).length = n
  mem_uniform2 : ∀ k n m p, p ∈ R.uniform2 k n m → 0 < m.1 → 0 < m.2 →
    0 ≤ p.1 ∧ p.1 < m.1 ∧ 0 ≤ p.2 ∧ p.2 < m.2
  length_splitN : ∀ k n, (R.splitN k n).length = n
  pi_pos : 0 < R.pi

/-- First draw of `_reset`:
`new_key, subkey = random.split(key)`;
`direcs = jnp.pi * (random.uniform(subkey, shape=(k,)) * 2 - 1)`. -/
def JaxMNISTLoader.resetDirecs (L : JaxMNISTLoader α) (R : JaxRT Key α) (key : Key) :
    List α :=
  (R.uniform01 (R.split key).2 L.nums_per_image).map fun u => R.pi * (u * 2 - 1)

/-- Second draw of `_reset`: `indexes = random.randint(subkey, (k,), 0, self.num_images)`
from the second split of the chained key. -/
def JaxMNISTLoader.resetIndexes (L : JaxMNISTLoader α) (R : JaxRT Key α) (key : Key) :
    List ℤ :=
  R.randint (R.split (R.split key).1).2 L.nums_per_image 0 L.num_images

/-- Third draw of `_reset`: `speeds = random.randint(subkey, (k,), 0, 5) + 2`
from the third split of the chained key. -/
def JaxMNISTLoader.resetSpeeds (L : JaxMNISTLoader α) (R : JaxRT Key α) (key : Key) :
    List ℤ :=
  (R.randint (R.split (R.split (R.split key).1).1).2 L.nums_per_image 0 5).map
    fun s => s + 2

/-- `velocs = [(speed * cos(direc), speed * sin(direc)) for direc, speed in zip(direcs, speeds)]`. -/
def JaxMNISTLoader.resetVelocs (L : JaxMNISTLoader α) (R : JaxRT Key α) (key : Key) :
    List (α × α) :=
  ((L.resetDirecs R key).zip (L.resetSpeeds R key)).map fun ds =>
    ((ds.2 : α) * R.cos ds.1, (ds.2 : α) * R.sin ds.1)

/-- Fourth draw of `_reset`:
`positions = random.uniform(subkey, shape=(k,2), minval=0, maxval=(x_lim, y_lim))`
from the fourth split of the chained key. -/
def JaxMNISTLoader.resetPositions (L : JaxMNISTLoader α) (R : JaxRT Key α) (key : Key) :
    List (α × α) :=
  R.uniform2 (R.split (R.split (R.split (R.split key).1).1).1).2 L.nums_per_image
    ((x_lim : α), (y_lim : α))

/-- Translation of `_reset(key)`: the four chained splits feed the four draws
above; the returned env state is `(indexes, positions, velocs), new_key` with
`new_key` the carry of the fourth split. -/
def JaxMNISTLoader.resetEnv (L : JaxMNISTLoader α) (R : JaxRT Key α) (key : Key) :
    DigitState α × Key :=
  (⟨L.resetIndexes R key, L.resetPositions R key, L.resetVelocs R key⟩,
   (R.split (R.split (R.split (R.split key).1).1).1).1)

/-- Translation of `reset(key)`: the fresh env state together with the rendered
observation of its initial digit state. -/
def JaxMNISTLoader.reset (L : JaxMNISTLoader α) (R : JaxRT Key α) (key : Key) :
    (DigitState α × Key) × (ℤ → ℤ → α) :=
  let env_state := L.resetEnv R key
  (env_state, L.get_obsv env_state.1)

/-- Translation of `scan_func(carry, x)`: step and keep `(new_carry, y)`. -/
def JaxMNISTLoader.scan_func (L : JaxMNISTLoader α) (carry : DigitState α × Key)
    (x : Unit) : (DigitState α × Key) × (ℤ → ℤ → α) :=
  let r := L.step carry x
  (r.env, r.obs)

/-- `jax.lax.scan` specialised to a carried step function: returns the final
carry and the list of per-tick outputs, in order. -/
def scanN {S F : Type} (f : S → S × F) : S → ℕ → S × List F
  | s, 0 => (s, [])
  | s, Nat.succ n =>
    let r := f s
    let rest := scanN f r.1 n
    (rest.1, r.2 :: rest.2)

/-- Translation of `build_seq(key)`: reset (discarding the rendered reset
frame), then scan `scan_func` for `seq_len` ticks, returning the stacked ys. -/
def JaxMNISTLoader.build_seq (L : JaxMNISTLoader α) (R : JaxRT Key α) (key : Key) :
    List (ℤ → ℤ → α) :=
  let init := (L.reset R key).1
  (scanN (fun c => L.scan_func c ()) init L.seq_len).2

/-- `n`-fold application of `step` with the null action, threading the env. -/
def JaxMNISTLoader.stepN (L : JaxMNISTLoader α) (e : DigitState α × Key) :
    ℕ → DigitState α × Key
  | 0 => e
  | Nat.succ n => L.stepN ((L.step e ()).env) n

/-- The parent key maintained by the `jaxMMNIST` generator loop: seeded with
`jax.random.key(38)`, advanced by taking the first component of a split once
per emitted batch (`next_key, current_key = jax.random.split(next_key)`). -/
def genParentKey (R : JaxRT Key α) : ℕ → Key
  | 0 => R.mkKey 38
  | Nat.succ n => (R.split (genParentKey R n)).1

/-- `einops.rearrange(ys, "b t w h -> b t w h 1")` applied to one 64×64 frame:
materialise the canvas function as a 64×64×1 nested list. -/
def frameGrid (f : ℤ → ℤ → α) : List (List (List α)) :=
  (List.range 64).map fun i => (List.range 64).map fun j => [f (Int.ofNat i) (Int.ofNat j)]

/-- `action = jnp.zeros((batch_size, seq_len, 2))`, computed once before the
generator loop. -/
def batchAction (batch_size seq_len : ℕ) : List (List (List α)) :=
  List.replicate batch_size (List.replicate seq_len (List.replicate 2 (0 : α)))

/-- `is_first = jnp.zeros((batch_size, seq_len), bool).at[0].set(True)`,
computed once before the generator loop. -/
def batchIsFirst (batch_size seq_len : ℕ) : List (List Bool) :=
  (List.replicate batch_size (List.replicate seq_len false)).set 0
    (List.replicate seq_len true)

/-- One yielded element of the `jaxMMNIST` generator. -/
structure Batch (α : Type) where
  image : List (List (List (List (List α))))
  action : List (List (List α))
  is_first : List (List Bool)

/-- Translation of the body of the `jaxMMNIST` generator loop for the `n`-th
pull (0-based): split the maintained parent key, split the current key into
`batch_size` child keys, map `build_seq` over them (`jax.vmap`), reshape, and
package with the fixed `action` and `is_first` tags. -/
def nthBatch (R : JaxRT Key α) (L : JaxMNISTLoader α) (batch_size n : ℕ) : Batch α :=
  let current_key := (R.split (genParentKey R n)).2
  let batch_key := R.splitN current_key batch_size
  ⟨batch_key.map (fun k => (L.build_seq R k).map frameGrid),
   batchAction batch_size L.seq_len,
   batchIsFirst batch_size L.seq_len⟩

/-- Constant all-255 test sprite (maximal uint8 intensity). -/
def sprite255 : Sprite ℚ := fun _ _ => 255

/-- Constant all-200 test sprite (two overlapping copies sum past 255). -/
def sprite200 : Sprite ℚ := fun _ _ => 200

/-- Small concrete loader: one sprite, `seq_len = 2`, one digit per sequence. -/
def L0 : JaxMNISTLoader ℚ := ⟨[sprite255], 2, 1⟩

/-- Concrete loader for saturation checks: one sprite, two digits per sequence. -/
def L6 : JaxMNISTLoader ℚ := ⟨[sprite200], 1, 2⟩

/-- Concrete digit state about to cross the right reflection bound on x. -/
def st1 : DigitState ℚ := ⟨[0], [(35, 10)], [(4, -3)]⟩

/-- Concrete digit state whose raw position lies far outside the canvas. -/
def st5 : DigitState ℚ := ⟨[0], [(1000, -500)], []⟩

/-- Concrete digit state with two digits stacked at the origin. -/
def st6 : DigitState ℚ := ⟨[0, 0], [(0, 0), (0, 0)], [(1, 1), (1, 1)]⟩

/-- A concrete runtime over `Key := ℕ`, `α := ℚ` satisfying the JAX contracts:
uniform draws return 1/2, integer draws return the lower bound, positions
return the origin. -/
def RT0 : JaxRT ℕ ℚ where
  mkKey n := n
  split k := (2 * k + 1, 2 * k + 2)
  splitN k n := List.replicate n k
  uniform01 _ n := List.replicate n (1 / 2)
  randint _ n lo _ := List.replicate n lo
  uniform2 _ n _ := List.replicate n (0, 0)
  pi := 3
  cos _ := 1
  sin _ := 0

/-- A contract-conforming runtime whose unit-uniform draw returns 0, the lowest
value of the documented range `[0, 1)` of `jax.random.uniform`. -/
def RTce : JaxRT ℕ ℚ := { RT0 with uniform01 := fun _ n => List.replicate n 0 }

/-! Helper lemmas about the embedded operations. -/

lemma getD_zipWith {X Y Z : Type} (f : X → Y → Z) (l1 : List X) :
    ∀ (l2 : List Y) (i : ℕ) (d : Z) (d1 : X) (d2 : Y),
      i < l1.length → i < l2.length →
      (List.zipWith f l1 l2).getD i d = f (l1.getD i d1) (l2.getD i d2) := by
  induction l1 with
  | nil => intro l2 i d d1 d2 h1 _; simp at h1
  | cons x l1 ih =>
    intro l2 i d d1 d2 h1 h2
    cases l2 with
    | nil => simp at h2
    | cons y l2 =>
      cases i with
      | zero => rfl
      | succ i =>
        simp only [List.zipWith_cons_cons, List.getD_cons_succ]
        exact ih l2 i d d1 d2 (by simpa using h1) (by simpa using h2)

lemma getD_replicate {X : Type} (n i : ℕ) (a d : X) :
    (List.replicate n a).getD i d = if i < n then a else d := by
  by_cases h : i < n
  · rw [if_pos h, List.getD_eq_getElem _ _ (by simpa using h), List.getElem_replicate]
  · rw [if_neg h, List.getD_eq_default _ _ (by simpa using not_lt.mp h)]

lemma abs_flipVel (next_p v : α) : |flipVel next_p v| = |v| := by
  unfold flipVel
  split
  · exact abs_neg v
  · rfl

lemma clampPix_nonneg (lim x : ℤ) (h : 0 ≤ lim) : 0 ≤ clampPix lim x := by
  unfold clampPix
  split_ifs <;> omega

lemma clampPix_le (lim x : ℤ) (h : 0 ≤ lim) : clampPix lim x ≤ lim := by
  unfold clampPix
  split_ifs <;> omega

lemma step_env_state {A : Type} (L : JaxMNISTLoader α) (st : DigitState α) (key : Key)
    (a : A) :
    (L.step (st, key) a).env.1 =
      ⟨st.indexes,
       List.zipWith (fun p v => (p.1 + v.1, p.2 + v.2)) st.positions
         (List.zipWith (fun np v => (flipVel np.1 v.1, flipVel np.2 v.2))
           (List.zipWith (fun p v => (p.1 + v.1, p.2 + v.2)) st.positions st.velocs)
           st.velocs),
       List.zipWith (fun np v => (flipVel np.1 v.1, flipVel np.2 v.2))
         (List.zipWith (fun p v => (p.1 + v.1, p.2 + v.2)) st.positions st.velocs)
         st.velocs⟩ := rfl

lemma step_velocs_length {A : Type} (L : JaxMNISTLoader α) (st : DigitState α)
    (key : Key) (a : A) (hlen : st.positions.length = st.velocs.length) :
    (L.step (st, key) a).env.1.velocs.length = st.velocs.length := by
  rw [step_env_state]
  simp [List.length_zipWith, hlen]

lemma step_positions_length {A : Type} (L : JaxMNISTLoader α) (st : DigitState α)
    (key : Key) (a : A) (hlen : st.positions.length = st.velocs.length) :
    (L.step (st, key) a).env.1.positions.length = st.velocs.length := by
  rw [step_env_state]
  simp [List.length_zipWith, hlen]

lemma step_velocs_getD {A : Type} (L : JaxMNISTLoader α) (st : DigitState α)
    (key : Key) (a : A) (hlen : st.positions.length = st.velocs.length)
    (i : ℕ) (hi : i < st.velocs.length) :
    (L.step (st, key) a).env.1.velocs.getD i (0, 0) =
      (flipVel ((st.positions.getD i (0, 0)).1 + (st.velocs.getD i (0, 0)).1)
         ((st.velocs.getD i (0, 0)).1),
       flipVel ((st.positions.getD i (0, 0)).2 + (st.velocs.getD i (0, 0)).2)
         ((st.velocs.getD i (0, 0)).2)) := by
  have hnp : i < (List.zipWith (fun p v => (p.1 + v.1, p.2 + v.2))
      st.positions st.velocs).length := by
    simp [List.length_zipWith, hlen]; exact hi
  rw [step_env_state]
  show (List.zipWith _ _ _).getD i (0, 0) = _
  rw [getD_zipWith _ _ _ i (0, 0) (0, 0) (0, 0) hnp hi,
    getD_zipWith _ _ _ i (0, 0) (0, 0) (0, 0) (hlen ▸ hi) hi]

lemma step_positions_getD {A : Type} (L : JaxMNISTLoader α) (st : DigitState α)
    (key : Key) (a : A) (hlen : st.positions.length = st.velocs.length)
    (i : ℕ) (hi : i < st.velocs.length) :
    (L.step (st, key) a).env.1.positions.getD i (0, 0) =
      ((st.positions.getD i (0, 0)).1 + ((L.step (st, key) a).env.1.velocs.getD i (0, 0)).1,
       (st.positions.getD i (0, 0)).2 + ((L.step (st, key) a).env.1.velocs.getD i (0, 0)).2) := by
  have hv : i < (L.step (st, key) a).env.1.velocs.length := by
    rw [step_velocs_length L st key a hlen]; exact hi
  conv_lhs => rw [step_env_state]
  show (List.zipWith _ st.positions ((L.step (st, key) a).env.1.velocs)).getD i (0, 0) = _
  rw [getD_zipWith _ _ _ i (0, 0) (0, 0) (0, 0) (hlen ▸ hi) hv]

lemma scanN_length {S F : Type} (f : S → S × F) :
    ∀ (n : ℕ) (s : S), (scanN f s n).2.length = n := by
  intro n
  induction n with
  | zero => intro s; rfl
  | succ n ih => intro s; simp only [scanN, List.length_cons, ih]

lemma stepN_succ (L : JaxMNISTLoader α) :
    ∀ (n : ℕ) (e : DigitState α × Key),
      L.stepN e (n + 1) = (L.step (L.stepN e n) ()).env := by
  intro n
  induction n with
  | zero => intro e; rfl
  | succ n ih =>
    intro e
    show L.stepN ((L.step e ()).env) (n + 1) = _
    rw [ih]
    rfl

lemma scanN_scan_getElem (L : JaxMNISTLoader α) :
    ∀ (n i : ℕ) (e : DigitState α × Key), i < n →
      (scanN (fun c => L.scan_func c ()) e n).2[i]? =
        some ((L.scan_func (L.stepN e i) ()).2) := by
  intro n
  induction n with
  | zero => intro i e h; omega
  | succ n ih =>
    intro i e h
    cases i with
    | zero =>
      show ((L.scan_func e ()).2 :: (scanN (fun c => L.scan_func c ())
        ((L.scan_func e ()).1) n).2)[0]? = _
      rw [List.getElem?_cons_zero]
      rfl
    | succ i =>
      show ((L.scan_func e ()).2 :: (scanN (fun c => L.scan_func c ())
        ((L.scan_func e ()).1) n).2)[i + 1]? = _
      rw [List.getElem?_cons_succ]
      exact ih i ((L.step e ()).env) (by omega)

lemma build_seq_length (L : JaxMNISTLoader α) (R : JaxRT Key α) (key : Key) :
    (L.build_seq R key).length = L.seq_len :=
  scanN_length _ L.seq_len _

lemma getImage_cases (L : JaxMNISTLoader α) (ix : ℤ) :
    L.getImage ix ∈ L.images ∨ L.getImage ix = fun _ _ => (0 : α) := by
  unfold JaxMNISTLoader.getImage
  by_cases h : ix.toNat < L.images.length
  · left
    rw [List.getD_eq_getElem _ _ h]
    exact List.getElem_mem h
  · right
    exact List.getD_eq_default _ _ (not_lt.mp h)

lemma build_canvas_nonzero (L : JaxMNISTLoader α) (ix : ℤ) (pos : α × α) (i j : ℤ)
    (h : L.build_canvas ix pos i j ≠ 0) :
    0 ≤ i ∧ i < width ∧ 0 ≤ j ∧ j < height := by
  simp only [JaxMNISTLoader.build_canvas] at h
  by_cases hc : clampPix x_lim (truncToZero pos.1) ≤ i ∧
      i < clampPix x_lim (truncToZero pos.1) + mnist_width ∧
      clampPix y_lim (truncToZero pos.2) ≤ j ∧
      j < clampPix y_lim (truncToZero pos.2) + mnist_height
  · have hx0 : 0 ≤ clampPix x_lim (truncToZero pos.1) :=
      clampPix_nonneg _ _ (by unfold x_lim width mnist_width; omega)
    have hx1 : clampPix x_lim (truncToZero pos.1) ≤ x_lim :=
      clampPix_le _ _ (by unfold x_lim width mnist_width; omega)
    have hy0 : 0 ≤ clampPix y_lim (truncToZero pos.2) :=
      clampPix_nonneg _ _ (by unfold y_lim height mnist_height; omega)
    have hy1 : clampPix y_lim (truncToZero pos.2) ≤ y_lim :=
      clampPix_le _ _ (by unfold y_lim height mnist_height; omega)
    have hx2 : x_lim + mnist_width = width := by unfold x_lim width mnist_width; omega
    have hy2 : y_lim + mnist_height = height := by unfold y_lim height mnist_height; omega
    obtain ⟨h1, h2, h3, h4⟩ := hc
    exact ⟨le_trans hx0 h1, by omega, le_trans hy0 h3, by omega⟩
  · rw [if_neg hc] at h
    exact absurd rfl h

lemma sumCanvas_nonneg (L : JaxMNISTLoader α) (st : DigitState α)
    (hs : ∀ s ∈ L.images, ∀ a b : ℕ, a < 28 → b < 28 → 0 ≤ s a b ∧ s a b ≤ 255)
    (i j : ℤ) : 0 ≤ L.sumCanvas st i j := by
  unfold JaxMNISTLoader.sumCanvas
  apply List.sum_nonneg
  intro x hx
  simp only [List.mem_map] at hx
  obtain ⟨ip, _, rfl⟩ := hx
  simp only [JaxMNISTLoader.build_canvas]
  split
  · rename_i hreg
    have ha : (i - clampPix x_lim (truncToZero ip.2.1)).toNat < 28 := by
      have := hreg.1
      have := hreg.2.1
      unfold mnist_width at *
      omega
    have hb : (j - clampPix y_lim (truncToZero ip.2.2)).toNat < 28 := by
      have := hreg.2.2.1
      have := hreg.2.2.2
      unfold mnist_height at *
      omega
    rcases getImage_cases L ip.1 with hm | he
    · exact (hs _ hm _ _ ha hb).1
    · rw [he]
  · exact le_refl 0

lemma stepN_abs_velocs (L : JaxMNISTLoader α) :
    ∀ (n : ℕ) (st : DigitState α) (key : Key),
      st.positions.length = st.velocs.length →
      (L.stepN (st, key) n).1.positions.length = (L.stepN (st, key) n).1.velocs.length ∧
      (L.stepN (st, key) n).1.velocs.length = st.velocs.length ∧
      ∀ i, i < st.velocs.length →
        |((L.stepN (st, key) n).1.velocs.getD i (0, 0)).1| = |(st.velocs.getD i (0, 0)).1| ∧
        |((L.stepN (st, key) n).1.velocs.getD i (0, 0)).2| = |(st.velocs.getD i (0, 0)).2| := by
  intro n
  induction n with
  | zero => intro st key hlen; exact ⟨hlen, rfl, fun i _ => ⟨rfl, rfl⟩⟩
  | succ n ih =>
    intro st key hlen
    have hstep : L.stepN (st, key) (n + 1) =
        L.stepN ((L.step (st, key) ()).env.1, key) n := rfl
    have hlen1 : (L.step (st, key) ()).env.1.positions.length =
        (L.step (st, key) ()).env.1.velocs.length := by
      rw [step_positions_length L st key () hlen, step_velocs_length L st key () hlen]
    obtain ⟨ih1, ih2, ih3⟩ := ih ((L.step (st, key) ()).env.1) key hlen1
    rw [step_velocs_length L st key () hlen] at ih2
    refine ⟨hstep ▸ ih1, hstep ▸ ih2, fun i hi => ?_⟩
    have hiv : i < (L.step (st, key) ()).env.1.velocs.length := by
      rw [step_velocs_length L st key () hlen]; exact hi
    obtain ⟨h1, h2⟩ := ih3 i hiv
    rw [step_velocs_getD L st key () hlen i hi] at h1 h2
    constructor
    · rw [hstep, h1]
      exact abs_flipVel _ _
    · rw [hstep, h2]
      exact abs_flipVel _ _

lemma RT0_valid : RT0.Valid := by
  constructor
  · intro k n; simp [RT0]
  · intro k n u hu
    have := List.eq_of_mem_replicate (show u ∈ List.replicate n (1 / 2 : ℚ) from hu)
    subst this
    norm_num
  · intro k n lo hi; simp [RT0]
  · intro k n lo hi v hlt hv
    have hv2 := List.eq_of_mem_replicate (show v ∈ List.replicate n lo from hv)
    rw [hv2]
    exact ⟨le_refl lo, hlt⟩
  · intro k n m; simp [RT0]
  · intro k n m p hp h1 h2
    have := List.eq_of_mem_replicate (show p ∈ List.replicate n ((0 : ℚ), (0 : ℚ)) from hp)
    subst this
    exact ⟨le_refl 0, h1, le_refl 0, h2⟩
  · intro k n; simp [RT0]
  · norm_num [RT0]

lemma RTce_valid : RTce.Valid := by
  constructor
  · intro k n; simp [RTce]
  · intro k n u hu
    have := List.eq_of_mem_replicate (show u ∈ List.replicate n (0 : ℚ) from hu)
    subst this
    norm_num
  · intro k n lo hi; simp [RTce, RT0]
  · intro k n lo hi v hlt hv
    have hv2 := List.eq_of_mem_replicate (show v ∈ List.replicate n lo from hv)
    rw [hv2]
    exact ⟨le_refl lo, hlt⟩
  · intro k n m; simp [RTce, RT0]
  · intro k n m p hp h1 h2
    have := List.eq_of_mem_replicate (show p ∈ List.replicate n ((0 : ℚ), (0 : ℚ)) from hp)
    subst this
    exact ⟨le_refl 0, h1, le_refl 0, h2⟩
  · intro k n; simp [RTce, RT0]
  · norm_num [RTce, RT0]

/-! Claim theorems. -/

/-- Claim C1: for every env state and any action, `step` forms the unclamped
prediction `next_pos = positions + velocities` and, for each digit `i` and each
coordinate axis independently, negates that axis's velocity component exactly
when the predicted component is `< -2` or `> (canvas_dim - sprite_dim) + 2`
(64 − 28 + 2 = 38 on both axes), leaving it unchanged otherwise; the returned
positions equal the old positions plus the possibly-flipped velocities, so a
detected reflection takes effect on the position in the same tick. -/
theorem step_reflects {A : Type} (L : JaxMNISTLoader α) (st : DigitState α)
    (key : Key) (a : A) (hlen : st.positions.length = st.velocs.length) :
    (L.step (st, key) a).env.1.velocs.length = st.velocs.length ∧
    (L.step (st, key) a).env.1.positions.length = st.velocs.length ∧
    ∀ i, i < st.velocs.length →
      ((L.step (st, key) a).env.1.velocs.getD i (0, 0) =
        ((if (st.positions.getD i (0, 0)).1 + (st.velocs.getD i (0, 0)).1 < -2 ∨
              (st.positions.getD i (0, 0)).1 + (st.velocs.getD i (0, 0)).1 >
                ((width - mnist_width : ℤ) : α) + 2
          then -(st.velocs.getD i (0, 0)).1 else (st.velocs.getD i (0, 0)).1),
         (if (st.positions.getD i (0, 0)).2 + (st.velocs.getD i (0, 0)).2 < -2 ∨
              (st.positions.getD i (0, 0)).2 + (st.velocs.getD i (0, 0)).2 >
                ((height - mnist_height : ℤ) : α) + 2
          then -(st.velocs.getD i (0, 0)).2 else (st.velocs.getD i (0, 0)).2))) ∧
      (L.step (st, key) a).env.1.positions.getD i (0, 0) =
        ((st.positions.getD i (0, 0)).1 + ((L.step (st, key) a).env.1.velocs.getD i (0, 0)).1,
         (st.positions.getD i (0, 0)).2 + ((L.step (st, key) a).env.1.velocs.getD i (0, 0)).2) := by
  refine ⟨step_velocs_length L st key a hlen, step_positions_length L st key a hlen,
    fun i hi => ⟨?_, step_positions_getD L st key a hlen i hi⟩⟩
  rw [step_velocs_getD L st key a hlen i hi]
  rfl

/-- Witness for C1 at a concrete input: a digit at x = 35 with vx = 4 predicts
x = 39 > 38, so the returned velocity list still has one entry. -/
theorem step_reflects_witness :
    st1.positions.length = st1.velocs.length ∧
    (L0.step (st1, (0 : ℕ)) ()).env.1.velocs.length = st1.velocs.length :=
  ⟨by decide, (step_reflects L0 st1 (0 : ℕ) () (by decide)).1⟩

/-- Counterexample to claim C2: constructing the loader with `seq_len = 0`
(non-positive), an empty sprite collection and `digits_per_sequence = 0`
succeeds: `__init__` performs no validation and raises nothing, so no
InvalidConfiguration error is reported at construction time. -/
theorem mkLoader_accepts_invalid_config :
    mkLoader ([] : List (Sprite ℚ)) 0 0 = Except.ok ⟨[], 0, 0⟩ := rfl

/-- Claim C2 as amended: construction never reports an error; any images list
(including the empty one), any `seq_len` (including 0) and any
`digits_per_sequence` (including 0) are accepted silently, the constructor
merely storing its arguments. -/
theorem mkLoader_always_ok (images : List (Sprite α)) (s n : ℕ) :
    mkLoader images s n = Except.ok ⟨images, s, n⟩ := rfl

/-- Claim C8: for every env state and any two action values (of any types),
`step` returns identical results — the same next env state, frame, reward
(always 1.0), done (always false) and info (always empty); the action argument
has no influence on any output. -/
theorem step_action_irrelevant {A B : Type} (L : JaxMNISTLoader α)
    (e : DigitState α × Key) (a1 : A) (a2 : B) :
    L.step e a1 = L.step e a2 ∧ (L.step e a1).reward = 1 ∧
    (L.step e a1).done = false ∧ (L.step e a1).info = [] :=
  ⟨rfl, rfl, rfl, rfl⟩

/-- Claim C9: the env state returned by `step` carries exactly the same digit
indices and exactly the same random key as the input; the random stream is
neither consulted nor advanced by `step` (its type does not even reach a
`JaxRT`). -/
theorem step_preserves_indexes_key {A : Type} (L : JaxMNISTLoader α)
    (e : DigitState α × Key) (a : A) :
    (L.step e a).env.1.indexes = e.1.indexes ∧ (L.step e a).env.2 = e.2 :=
  ⟨rfl, rfl⟩

/-- Claim C10: each velocity component after one `step` (with any action) has
the same absolute value as before (kept or negated, never scaled), and under
`n` null-action steps both componentwise absolute values and the squared speed
magnitude `vx² + vy²` of every digit are invariant. -/
theorem velocity_magnitude_invariant {A : Type} (L : JaxMNISTLoader α)
    (st : DigitState α) (key : Key) (a : A) (n : ℕ)
    (hlen : st.positions.length = st.velocs.length) :
    (∀ i, i < st.velocs.length →
      |((L.step (st, key) a).env.1.velocs.getD i (0, 0)).1| = |(st.velocs.getD i (0, 0)).1| ∧
      |((L.step (st, key) a).env.1.velocs.getD i (0, 0)).2| = |(st.velocs.getD i (0, 0)).2|) ∧
    ∀ i, i < st.velocs.length →
      |((L.stepN (st, key) n).1.velocs.getD i (0, 0)).1| = |(st.velocs.getD i (0, 0)).1| ∧
      |((L.stepN (st, key) n).1.velocs.getD i (0, 0)).2| = |(st.velocs.getD i (0, 0)).2| ∧
      ((L.stepN (st, key) n).1.velocs.getD i (0, 0)).1 ^ 2 +
          ((L.stepN (st, key) n).1.velocs.getD i (0, 0)).2 ^ 2 =
        (st.velocs.getD i (0, 0)).1 ^ 2 + (st.velocs.getD i (0, 0)).2 ^ 2 := by
  constructor
  · intro i hi
    rw [step_velocs_getD L st key a hlen i hi]
    exact ⟨abs_flipVel _ _, abs_flipVel _ _⟩
  · intro i hi
    obtain ⟨-, -, h3⟩ := stepN_abs_velocs L n st key hlen
    obtain ⟨h1, h2⟩ := h3 i hi
    refine ⟨h1, h2, ?_⟩
    rw [← sq_abs (((L.stepN (st, key) n).1.velocs.getD i (0, 0)).1),
      ← sq_abs (((L.stepN (st, key) n).1.velocs.getD i (0, 0)).2),
      ← sq_abs ((st.velocs.getD i (0, 0)).1), ← sq_abs ((st.velocs.getD i (0, 0)).2),
      h1, h2]

/-- Witness for C10 at a concrete input: the digit of `st1` keeps |vx| = 4 and
|vy| = 3 across three steps. -/
theorem velocity_magnitude_invariant_witness :
    st1.positions.length = st1.velocs.length ∧
    |((L0.stepN (st1, (0 : ℕ)) 3).1.velocs.getD 0 (0, 0)).1| =
      |(st1.velocs.getD 0 (0, 0)).1| :=
  ⟨by decide,
   ((velocity_magnitude_invariant L0 st1 (0 : ℕ) () 3 (by decide)).2 0 (by decide)).1⟩

/-- Claim C5: for every digit state with arbitrary (even far out-of-canvas)
real positions, every nonzero pixel of the rendered frame lies within
`[0, 64) × [0, 64)`: each sprite is placed at its truncated-to-integer position
clamped per axis to `[0, canvas_dim − sprite_dim]`, so no sprite write escapes
the canvas. -/
theorem render_containment (L : JaxMNISTLoader α) (st : DigitState α) (i j : ℤ)
    (h : L.get_obsv st i j ≠ 0) :
    0 ≤ i ∧ i < width ∧ 0 ≤ j ∧ j < height := by
  have hc : L.sumCanvas st i j ≠ 0 := by
    intro h0
    apply h
    show (if L.sumCanvas st i j > 255 then (255 : α) else L.sumCanvas st i j) / 255 = 0
    rw [h0]
    norm_num
  have hex : ∃ ip ∈ st.indexes.zip st.positions, L.build_canvas ip.1 ip.2 i j ≠ 0 := by
    by_contra hall
    push_neg at hall
    apply hc
    show ((st.indexes.zip st.positions).map fun ip => L.build_canvas ip.1 ip.2 i j).sum = 0
    apply List.sum_eq_zero
    intro x hx
    simp only [List.mem_map] at hx
    obtain ⟨ip, hip, rfl⟩ := hx
    exact hall ip hip
  obtain ⟨ip, -, hne⟩ := hex
  exact build_canvas_nonzero L ip.1 ip.2 i j hne

/-- Witness for C5 at a concrete input: a digit whose raw position is
(1000, −500) still renders a nonzero pixel only inside the canvas — pixel
(40, 5) is lit (the position clamps to (36, 0)) and lies within bounds. -/
theorem render_containment_witness :
    L0.get_obsv st5 40 5 ≠ 0 ∧ (0 ≤ (40 : ℤ) ∧ 40 < width ∧ 0 ≤ (5 : ℤ) ∧ 5 < height) := by
  have h : L0.get_obsv st5 40 5 ≠ 0 := by
    have h1 : truncToZero ((1000 : ℚ)) = 1000 := by norm_num [truncToZero]
    have h2 : truncToZero ((-500 : ℚ)) = -500 := by
      rw [truncToZero, if_neg (by norm_num),
        show ((-500 : ℚ)) = ((-500 : ℤ) : ℚ) by norm_num, Int.ceil_intCast]
    norm_num [JaxMNISTLoader.get_obsv, JaxMNISTLoader.sumCanvas, JaxMNISTLoader.build_canvas,
      JaxMNISTLoader.getImage, L0, st5, sprite255, clampPix, h1, h2, x_lim, y_lim,
      width, height, mnist_width, mnist_height]
  exact ⟨h, render_containment L0 st5 40 5 h⟩

/-- Claim C6: for sprites with intensities in [0, 255], the rendered frame sums
the per-digit canvases pixelwise, clamps the sum at 255 (saturating, not
wrapping) and divides by 255; a pixel whose summed intensity exceeds 255
renders exactly as 1, and every rendered value lies in [0, 1]. -/
theorem render_saturation (L : JaxMNISTLoader α) (st : DigitState α)
    (hs : ∀ s ∈ L.images, ∀ a b : ℕ, a < 28 → b < 28 → 0 ≤ s a b ∧ s a b ≤ 255) :
    (∀ i j, L.sumCanvas st i j > 255 → L.get_obsv st i j = 1) ∧
    (∀ i j, 0 ≤ L.get_obsv st i j ∧ L.get_obsv st i j ≤ 1) := by
  constructor
  · intro i j hgt
    show (if L.sumCanvas st i j > 255 then (255 : α) else L.sumCanvas st i j) / 255 = 1
    rw [if_pos hgt]
    norm_num
  · intro i j
    show 0 ≤ (if L.sumCanvas st i j > 255 then (255 : α) else L.sumCanvas st i j) / 255 ∧
      (if L.sumCanvas st i j > 255 then (255 : α) else L.sumCanvas st i j) / 255 ≤ 1
    by_cases hgt : L.sumCanvas st i j > 255
    · rw [if_pos hgt]
      norm_num
    · rw [if_neg hgt]
      push_neg at hgt
      constructor
      · exact div_nonneg (sumCanvas_nonneg L st hs i j) (by norm_num)
      · rw [div_le_one (by norm_num : (0 : α) < 255)]
        exact hgt

/-- Witness for C6 at a concrete input: two all-200 sprites stacked at the
origin sum to 400 > 255 at pixel (5, 5), which renders exactly as 1. -/
theorem render_saturation_witness :
    L6.sumCanvas st6 5 5 > 255 ∧ L6.get_obsv st6 5 5 = 1 := by
  have hsum : L6.sumCanvas st6 5 5 > 255 := by
    have h0 : truncToZero ((0 : ℚ)) = 0 := by norm_num [truncToZero]
    norm_num [JaxMNISTLoader.sumCanvas, JaxMNISTLoader.build_canvas,
      JaxMNISTLoader.getImage, L6, st6, sprite200, clampPix, h0, x_lim, y_lim,
      width, height, mnist_width, mnist_height]
  refine ⟨hsum, (render_saturation L6 st6 ?_).1 5 5 hsum⟩
  intro s hs a b ha hb
  have heq : s = sprite200 := by
    simpa [L6] using hs
  rw [heq]
  constructor <;> norm_num [sprite200]

/-- Claim C3: for every seed key, `build_seq` returns exactly `seq_len` frames;
the frame rendered by `reset` for the initial state is never part of the
output — the i-th output frame (0-based) is the observation of the state
reached after i+1 null-action steps from the reset env state, so the first
emitted frame is the one produced by one step from the reset state. -/
theorem build_seq_offset_frames (R : JaxRT Key α) (L : JaxMNISTLoader α) (key : Key) :
    (L.build_seq R key).length = L.seq_len ∧
    ∀ i, i < L.seq_len →
      (L.build_seq R key)[i]? =
        some (L.get_obsv ((L.stepN ((L.reset R key).1) (i + 1)).1)) := by
  refine ⟨build_seq_length L R key, fun i hi => ?_⟩
  show (scanN (fun c => L.scan_func c ()) ((L.reset R key).1) L.seq_len).2[i]? = _
  rw [scanN_scan_getElem L L.seq_len i ((L.reset R key).1) hi, stepN_succ]
  rfl

/-- Witness for C3 at a concrete input: with the concrete runtime `RT0` and the
one-digit loader `L0` (seq_len = 2), the first emitted frame is the observation
after one step from the reset state. -/
theorem build_seq_offset_frames_witness :
    0 < L0.seq_len ∧
    (L0.build_seq RT0 7)[0]? =
      some (L0.get_obsv ((L0.stepN ((L0.reset RT0 7).1) 1).1)) :=
  ⟨by decide, (build_seq_offset_frames RT0 L0 7).2 0 (by decide)⟩

/-- Counterexample to claim C4 as stated: the claim puts the headings in
`(−π, π]`, but `jax.random.uniform` draws `u ∈ [0, 1)` (inclusive below,
exclusive above), so `heading = π·(2u − 1)` ranges over `[−π, π)`.  `RTce` is a
runtime satisfying every documented JAX contract whose unit-uniform draw
returns the admissible value `u = 0`; the resulting heading is exactly `−π`
(here `−RTce.pi = −3`), which violates the claimed strict lower bound
`−π < heading`. -/
theorem reset_heading_interval_false :
    RTce.Valid ∧ (-3 : ℚ) ∈ L0.resetDirecs RTce 0 ∧ ¬ (-RTce.pi < (-3 : ℚ)) := by
  refine ⟨RTce_valid, ?_, ?_⟩
  · show (-3 : ℚ) ∈ (RTce.uniform01 (RTce.split 0).2 L0.nums_per_image).map
      fun u => RTce.pi * (u * 2 - 1)
    norm_num [RTce, RT0, L0]
  · norm_num [RTce, RT0]

/-- Claim C4 as amended: `_reset` splits the incoming stream four times and
draws, in this order, (a) k headings uniform in `[−π, π)` (half-open below,
not `(−π, π]`), (b) k sprite indices in `[0, num_images)`, (c) k integer
speeds in `[2, 7)` (drawn as `[0, 5)` then offset by +2), (d) k positions with
each axis in `[0, canvas_dim − sprite_dim]`; and the returned velocities are
exactly `(speed·cos(heading), speed·sin(heading))` over the zipped draws. -/
theorem reset_draws (R : JaxRT Key α) (hR : R.Valid) (L : JaxMNISTLoader α)
    (key : Key) (himg : 0 < L.num_images) :
    (L.resetDirecs R key).length = L.nums_per_image ∧
    (∀ d ∈ L.resetDirecs R key, -R.pi ≤ d ∧ d < R.pi) ∧
    (L.resetIndexes R key).length = L.nums_per_image ∧
    (∀ ix ∈ L.resetIndexes R key, 0 ≤ ix ∧ ix < L.num_images) ∧
    (L.resetSpeeds R key).length = L.nums_per_image ∧
    (∀ s ∈ L.resetSpeeds R key, 2 ≤ s ∧ s < 7) ∧
    (L.resetPositions R key).length = L.nums_per_image ∧
    (∀ p ∈ L.resetPositions R key,
      0 ≤ p.1 ∧ p.1 ≤ ((x_lim : ℤ) : α) ∧ 0 ≤ p.2 ∧ p.2 ≤ ((y_lim : ℤ) : α)) ∧
    (L.resetEnv R key).1.velocs =
      ((L.resetDirecs R key).zip (L.resetSpeeds R key)).map
        (fun ds => ((ds.2 : α) * R.cos ds.1, (ds.2 : α) * R.sin ds.1)) ∧
    (L.resetEnv R key).1.indexes = L.resetIndexes R key ∧
    (L.resetEnv R key).1.positions = L.resetPositions R key := by
  have hx : (0 : α) < ((x_lim : ℤ) : α) := by
    have : (0 : ℤ) < x_lim := by norm_num [x_lim, width, mnist_width]
    exact_mod_cast this
  have hy : (0 : α) < ((y_lim : ℤ) : α) := by
    have : (0 : ℤ) < y_lim := by norm_num [y_lim, height, mnist_height]
    exact_mod_cast this
  refine ⟨?_, ?_, ?_, ?_, ?_, ?_, ?_, ?_, rfl, rfl, rfl⟩
  · show ((R.uniform01 (R.split key).2 L.nums_per_image).map _).length = _
    rw [List.length_map, hR.length_uniform01]
  · intro d hd
    simp only [JaxMNISTLoader.resetDirecs, List.mem_map] at hd
    obtain ⟨u, hu, rfl⟩ := hd
    obtain ⟨hu0, hu1⟩ := hR.mem_uniform01 _ _ _ hu
    have hpi := hR.pi_pos
    constructor
    · nlinarith
    · nlinarith
  · exact hR.length_randint _ _ _ _
  · intro ix hix
    exact hR.mem_randint _ _ _ _ _ himg hix
  · show ((R.randint _ L.nums_per_image 0 5).map _).length = _
    rw [List.length_map, hR.length_randint]
  · intro s hs
    simp only [JaxMNISTLoader.resetSpeeds, List.mem_map] at hs
    obtain ⟨w, hw, rfl⟩ := hs
    obtain ⟨hw0, hw5⟩ := hR.mem_randint _ _ _ _ _ (by norm_num) hw
    omega
  · exact hR.length_uniform2 _ _ _
  · intro p hp
    obtain ⟨h1, h2, h3, h4⟩ := hR.mem_uniform2 _ _ _ _ hp hx hy
    exact ⟨h1, le_of_lt h2, h3, le_of_lt h4⟩

/-- Witness for the amended C4 at a concrete input: the valid runtime `RT0`
and the one-sprite loader `L0` (so `num_images = 1 > 0`) draw exactly one
heading. -/
theorem reset_draws_witness :
    RT0.Valid ∧ 0 < L0.num_images ∧ (L0.resetDirecs RT0 7).length = L0.nums_per_image :=
  ⟨RT0_valid, by decide, (reset_draws RT0 RT0_valid L0 7 (by decide)).1⟩

lemma batchIsFirst_getD (bs sl b t : ℕ) (hb : b < bs) (ht : t < sl) :
    ((batchIsFirst bs sl).getD b []).getD t false = decide (b = 0) := by
  unfold batchIsFirst
  by_cases h0 : b = 0
  · subst h0
    have hrow : ((List.replicate bs (List.replicate sl false)).set 0
        (List.replicate sl true)).getD 0 [] = List.replicate sl true := by
      rw [List.getD_eq_getElem _ _ (by simpa using hb)]
      simp [List.getElem_set_self]
    rw [hrow, getD_replicate, if_pos ht]
    simp
  · rw [show ((List.replicate bs (List.replicate sl false)).set 0
        (List.replicate sl true)).getD b [] =
        (List.replicate bs (List.replicate sl false)).getD b [] by
      simp [List.getD, List.getElem?_set_ne (by omega : (0 : ℕ) ≠ b)]]
    rw [getD_replicate, if_pos hb, getD_replicate, if_pos ht]
    simp [h0]

/-- Claim C7: every batch yielded by the generator has an image of shape
(batch_size, seq_len, 64, 64, 1), an all-zero action array of shape
(batch_size, seq_len, 2), and an is_first array that is true on every timestep
of batch row 0 and false on every other row; the action and is_first tags are
identical for all batches (they are computed once, before the generator loop)
and do not depend on batch content. -/
theorem generator_batch_shape (R : JaxRT Key α) (hR : R.Valid)
    (L : JaxMNISTLoader α) (batch_size n : ℕ) :
    (nthBatch R L batch_size n).image.length = batch_size ∧
    (∀ s ∈ (nthBatch R L batch_size n).image, s.length = L.seq_len ∧
      ∀ g ∈ s, g.length = 64 ∧ ∀ row ∈ g, row.length = 64 ∧ ∀ c ∈ row, c.length = 1) ∧
    (nthBatch R L batch_size n).action.length = batch_size ∧
    (∀ r ∈ (nthBatch R L batch_size n).action, r.length = L.seq_len ∧
      ∀ x ∈ r, x = List.replicate 2 (0 : α)) ∧
    (nthBatch R L batch_size n).is_first.length = batch_size ∧
    (∀ b t : ℕ, b < batch_size → t < L.seq_len →
      ((nthBatch R L batch_size n).is_first.getD b []).getD t false = decide (b = 0)) ∧
    ∀ m : ℕ, (nthBatch R L batch_size m).action = (nthBatch R L batch_size n).action ∧
      (nthBatch R L batch_size m).is_first = (nthBatch R L batch_size n).is_first := by
  refine ⟨?_, ?_, ?_, ?_, ?_, ?_, fun m => ⟨rfl, rfl⟩⟩
  · show ((R.splitN _ batch_size).map _).length = _
    rw [List.length_map, hR.length_splitN]
  · intro s hs
    have hs2 : s ∈ (R.splitN ((R.split (genParentKey R n)).2) batch_size).map
        (fun k => (L.build_seq R k).map frameGrid) := hs
    obtain ⟨k, -, rfl⟩ := List.mem_map.mp hs2
    refine ⟨by rw [List.length_map, build_seq_length], fun g hg => ?_⟩
    obtain ⟨f, -, rfl⟩ := List.mem_map.mp hg
    refine ⟨?_, fun row hrow => ?_⟩
    · show ((List.range 64).map _).length = 64
      rw [List.length_map, List.length_range]
    have hrow2 : row ∈ (List.range 64).map
        (fun i => (List.range 64).map fun j => [f (Int.ofNat i) (Int.ofNat j)]) := hrow
    obtain ⟨i, -, rfl⟩ := List.mem_map.mp hrow2
    refine ⟨by rw [List.length_map, List.length_range], fun c hc => ?_⟩
    obtain ⟨j, -, rfl⟩ := List.mem_map.mp hc
    rfl
  · show (batchAction batch_size L.seq_len : List (List (List α))).length = _
    simp [batchAction]
  · intro r hr
    have hr2 := List.eq_of_mem_replicate
      (show r ∈ List.replicate batch_size (List.replicate L.seq_len
        (List.replicate 2 (0 : α))) from hr)
    rw [hr2]
    exact ⟨by simp, fun x hx => List.eq_of_mem_replicate hx⟩
  · show (batchIsFirst batch_size L.seq_len).length = _
    simp [batchIsFirst]
  · intro b t hb ht
    exact batchIsFirst_getD batch_size L.seq_len b t hb ht

/-- Witness for C7 at a concrete input: with the valid runtime `RT0`, a
two-element batch of `L0` sequences has an image of batch length 2. -/
theorem generator_batch_shape_witness :
    RT0.Valid ∧ (nthBatch RT0 L0 2 0).image.length = 2 :=
  ⟨RT0_valid, (generator_batch_shape RT0 RT0_valid L0 2 0).1⟩

end JaxHPM
